import Mathlib

/-!
Verification of the yang-cache repository: a sharded two-tier (L1/L2) LRU
key/value store with expiration (store/cache.go, store/lru2.go-style code),
the node-indexed doubly linked LRU list it is built on, the process-wide
approximate clock, and the singleflight request-deduplication group.

The Go code is shallowly embedded: Go maps become association lists,
slices become `List`s with positional `set`/`getD`, the mutable struct is
threaded explicitly, `int64` nanosecond timestamps become `Int`, and the
eviction callback becomes an explicit event log (a list of `(key, value)`
pairs recorded exactly where the Go code would invoke `onEvicted`).
Values (`Value`, Go `interface{}`) are modelled as `Nat`: every value the
modelled API stores is caller-supplied and non-nil, so Go's `!= nil`
guards on stored values are always true and are dropped.
-/

namespace YangCache

/-- Stored values (Go `Value` / `interface{}`); caller-supplied, non-nil. -/
abbrev Value := Nat

/-- Association-list model of a Go `map[string]α`: assignment `m[k] = a`. -/
def alSet {α : Type} (m : List (String × α)) (k : String) (a : α) : List (String × α) :=
  (k, a) :: m.filter (fun p => p.1 ≠ k)

/-- Association-list model of Go `delete(m, k)`. -/
def alErase {α : Type} (m : List (String × α)) (k : String) : List (String × α) :=
  m.filter (fun p => p.1 ≠ k)

/-- LRU node (`type node struct` in the list file): key, value, expiry
timestamp in nanoseconds.  `expireAt > 0` means live; `expireAt = 0` is the
tombstone; the Go zero value of `node` is `⟨"", 0, 0⟩`. -/
structure Node where
  k : String
  v : Value
  expireAt : Int
deriving Repr, DecidableEq

instance : Inhabited Node := ⟨⟨"", 0, 0⟩⟩

/-- Index of the predecessor link inside a `[2]uint16` pair (Go global `pre`). -/
def pre : Nat := 0

/-- Index of the successor link inside a `[2]uint16` pair (Go global `next`). -/
def next : Nat := 1

/-- Read component `d` (0 = pre, 1 = next) of a link pair. -/
def linkGet (p : Nat × Nat) (d : Nat) : Nat :=
  if d = 0 then p.1 else p.2

/-- Write component `d` (0 = pre, 1 = next) of a link pair. -/
def linkSet (p : Nat × Nat) (d : Nat) (x : Nat) : Nat × Nat :=
  if d = 0 then (x, p.2) else (p.1, x)

/-- The node-indexed LRU list (`type cache struct`): `dlnk` is the doubly
linked list of (pre, next) index pairs with slot 0 as the sentinel, `m` is
the pre-allocated node array (1-based indices in `hmap`/`dlnk`), `hmap`
maps keys to node indices, `last` is the number of slots ever used. -/
structure Cache where
  dlnk : List (Nat × Nat)
  m : List Node
  hmap : List (String × Nat)
  last : Nat
deriving Repr, DecidableEq

/-- Go `c.dlnk[i][d]`. -/
def Cache.lnk (c : Cache) (i d : Nat) : Nat :=
  linkGet (c.dlnk.getD i (0, 0)) d

/-- Go `c.dlnk[i][d] = x`. -/
def Cache.setLnk (c : Cache) (i d x : Nat) : Cache :=
  { c with dlnk := c.dlnk.set i (linkSet (c.dlnk.getD i (0, 0)) d x) }

/-- Go `Create(cap)`: sentinel plus `cap` zero-valued slots, empty map. -/
def Create (cap : Nat) : Cache :=
  { dlnk := List.replicate (cap + 1) (0, 0)
    m := List.replicate cap default
    hmap := []
    last := 0 }

/-- Go `cache.adjust(idx, front, tail)`: relink node `idx` to the
`tail`-side extreme of the list (head when called with `(pre, next)`,
tail when called with `(next, pre)`); a no-op when `idx` is already
there.  Each Go assignment reads the state left by the previous one. -/
def Cache.adjust (c : Cache) (idx front tl : Nat) : Cache :=
  if c.lnk idx front ≠ 0 then
    let curPre := c.lnk idx front
    let curNext := c.lnk idx tl
    let c1 := c.setLnk curNext front (c.lnk idx front)
    let c2 := c1.setLnk curPre tl (c1.lnk idx tl)
    let c3 := c2.setLnk idx front 0
    let c4 := c3.setLnk idx tl (c3.lnk 0 tl)
    let c5 := c4.setLnk (c4.lnk 0 tl) front idx
    c5.setLnk 0 tl idx
  else c

/-- Go `cache.put(key, val, expireAt, onEvicted)`.  Returns the Go result
(1 = inserted, 0 = updated), the new list state, and the eviction events
fired (`onEvicted` is modelled as a `Bool` saying whether a callback is
installed, and the returned list records its invocations). -/
def Cache.put (c : Cache) (key : String) (val : Value) (expireAt : Int) (cb : Bool) :
    Nat × Cache × List (String × Value) :=
  match c.hmap.lookup key with
  | some idx =>
      let nd := c.m.getD (idx - 1) default
      let c1 := { c with m := c.m.set (idx - 1) { nd with v := val, expireAt := expireAt } }
      (0, c1.adjust idx pre next, [])
  | none =>
      if c.last = c.m.length then
        let tailIdx := c.lnk 0 pre
        let tailNode := c.m.getD (tailIdx - 1) default
        let evs := if cb = true ∧ 0 < tailNode.expireAt then [(tailNode.k, tailNode.v)] else []
        let c1 := { c with hmap := alSet (alErase c.hmap tailNode.k) key tailIdx,
                           m := c.m.set (tailIdx - 1) ⟨key, val, expireAt⟩ }
        (1, c1.adjust tailIdx pre next, evs)
      else
        let c1 := { c with last := c.last + 1 }
        let c2 := if c1.hmap.length ≤ 0 then c1.setLnk 0 pre c1.last
                  else c1.setLnk (c1.lnk 0 next) pre c1.last
        let c3 := { c2 with m := c2.m.set (c2.last - 1) ⟨key, val, expireAt⟩ }
        let c4 := { c3 with dlnk := c3.dlnk.set c3.last (0, c3.lnk 0 next) }
        let c5 := { c4 with hmap := alSet c4.hmap key c4.last }
        (1, c5.setLnk 0 next c5.last, [])

/-- Go `cache.get(key)`: on a hit, move the node to the head and return a
pointer to it (read here after the adjust, which leaves `m` unchanged). -/
def Cache.get (c : Cache) (key : String) : Option Node × Nat × Cache :=
  match c.hmap.lookup key with
  | some idx =>
      let c1 := c.adjust idx pre next
      (some (c1.m.getD (idx - 1) default), 1, c1)
  | none => (none, 0, c)

/-- Go `cache.del(key)`: if present and live, capture the prior expiry,
tombstone the slot (`expireAt = 0`), move it to the tail, and return the
(tombstoned) node, status 1 and the captured expiry. -/
def Cache.del (c : Cache) (key : String) : Option Node × Nat × Int × Cache :=
  match c.hmap.lookup key with
  | some idx =>
      if 0 < (c.m.getD (idx - 1) default).expireAt then
        let e := (c.m.getD (idx - 1) default).expireAt
        let nd := c.m.getD (idx - 1) default
        let c1 := { c with m := c.m.set (idx - 1) { nd with expireAt := 0 } }
        let c2 := c1.adjust idx next pre
        (some (c2.m.getD (idx - 1) default), 1, e, c2)
      else (none, 0, 0, c)
  | none => (none, 0, 0, c)

/-- Fuel-bounded traversal of the linked list from slot `idx`, collecting
the live nodes visited; the fuel (one more than the number of slots)
covers any well-formed list. -/
def Cache.walkFrom (c : Cache) : Nat → Nat → List Node
  | _, 0 => []
  | idx, fuel + 1 =>
      if idx = 0 then []
      else
        let n := c.m.getD (idx - 1) default
        let rest := c.walkFrom (c.lnk idx next) fuel
        if 0 < n.expireAt then n :: rest else rest

/-- Go `cache.walk(walker)` for the callers modelled here (all of whose
walkers always continue): the list of live nodes in list order. -/
def Cache.walk (c : Cache) : List Node :=
  c.walkFrom (c.lnk 0 next) c.dlnk.length

/-- Whether `key` is live in this list: present in `hmap` and its slot has
a strictly positive `expireAt`. -/
def Cache.isLive (c : Cache) (key : String) : Bool :=
  match c.hmap.lookup key with
  | some idx => decide (0 < (c.m.getD (idx - 1) default).expireAt)
  | none => false

/-- The value currently stored for `key` (meaningful when present). -/
def Cache.storedVal (c : Cache) (key : String) : Value :=
  (c.m.getD ((c.hmap.lookup key).getD 0 - 1) default).v

/-- Signed 32-bit wrap-around, for Go `int32` arithmetic. -/
def wrap32 (x : Int) : Int :=
  (x + 2 ^ 31) % 2 ^ 32 - 2 ^ 31

/-- Go `hashBKRD(s)`: `hash = hash*131 + int32(s[i])` over the bytes of
the key, with `int32` overflow.  Keys are modelled over their Unicode
code points, which coincides with Go's bytes for ASCII keys. -/
def hashBKRD (s : String) : Int :=
  s.toList.foldl (fun h c => wrap32 (h * 131 + c.toNat)) 0

/-- Go `maskOfNextPowOf2(cap)` on `uint16` (all values stay below 2^16,
so plain `Nat` bit operations agree with the Go code). -/
def maskOfNextPowOf2 (cap : Nat) : Nat :=
  if 0 < cap ∧ cap &&& (cap - 1) = 0 then cap - 1
  else
    let c1 := cap ||| cap >>> 1
    let c2 := c1 ||| c1 >>> 2
    let c3 := c2 ||| c2 >>> 4
    c3 ||| c3 >>> 8

/-- Go `hashBKDR(key) & s.mask`: `int32` bitwise AND against the
(positive, < 2^16) mask equals AND on the hash's two's-complement bits. -/
def shardIdx (key : String) (mask : Nat) : Nat :=
  (hashBKRD key % 2 ^ 32).toNat &&& mask

/-- The sharded two-tier store (`type lru2Store struct`).  `caches i`
is shard `i`'s (L1, L2) pair; `mask` the shard mask; `onEvicted` records
whether an eviction callback is installed (its invocations are returned
as explicit event lists).  Locks and the cleanup ticker are concurrency
artifacts with no sequential content and are not part of the state. -/
structure LRU2Store where
  caches : Nat → Cache × Cache
  mask : Nat
  onEvicted : Bool

/-- Replace the cache pair of shard `i`. -/
def LRU2Store.setShard (s : LRU2Store) (i : Nat) (p : Cache × Cache) : LRU2Store :=
  { s with caches := fun j => if j = i then p else s.caches j }

/-- Go `newLRU2Cache(opts)` (cleanup goroutine omitted): default the
parameters, build the mask, and give every shard a fresh L1 of capacity
`capPerBucket` and L2 of capacity `level2Cap`. -/
def newLRU2Cache (bucketCount capPerBucket level2Cap : Nat) (cb : Bool) : LRU2Store :=
  let bc := if bucketCount = 0 then 16 else bucketCount
  let cpb := if capPerBucket = 0 then 1024 else capPerBucket
  let l2c := if level2Cap = 0 then 1024 else level2Cap
  { caches := fun _ => (Create cpb, Create l2c)
    mask := maskOfNextPowOf2 bc
    onEvicted := cb }

/-- Go `lru2Store.delete(key, idx)`: tombstone `key` in both tiers of
shard `idx`; deleted iff either del reported a live entry; fire the
callback once, preferring the L1 node (`n1`). -/
def LRU2Store.deleteAt (s : LRU2Store) (key : String) (idx : Nat) :
    Bool × LRU2Store × List (String × Value) :=
  match (s.caches idx).1.del key with
  | (n1, s1, _, l1') =>
    match (s.caches idx).2.del key with
    | (n2, s2, _, l2') =>
      let deleted := decide (0 < s1) || decide (0 < s2)
      let evs :=
        if deleted = true ∧ s.onEvicted = true then
          match n1 with
          | some n => [(key, n.v)]
          | none => match n2 with
            | some n => [(key, n.v)]
            | none => []
        else []
      (deleted, s.setShard idx (l1', l2'), evs)

/-- Go `lru2Store.Delete(key)`. -/
def LRU2Store.Delete (s : LRU2Store) (key : String) : Bool × LRU2Store × List (String × Value) :=
  s.deleteAt key (shardIdx key s.mask)

/-- Go `lru2Store._get(key, idx, level)`: look the key up in the given
tier (moving it to that tier's head on a hit), and filter out entries
that are tombstoned or expired at the current clock reading `now`. -/
def LRU2Store.getLevel (s : LRU2Store) (key : String) (idx level : Nat) (now : Int) :
    Option Node × Nat × LRU2Store :=
  match (if level = 0 then (s.caches idx).1 else (s.caches idx).2).get key with
  | (some n, st, c') =>
      let s' := s.setShard idx
        (if level = 0 then (c', (s.caches idx).2) else ((s.caches idx).1, c'))
      if 0 < st then
        if n.expireAt ≤ 0 ∨ now ≥ n.expireAt then (none, 0, s') else (some n, st, s')
      else (none, 0, s')
  | (none, _, _) => (none, 0, s)

/-- Steps 3–4 of Go `lru2Store.Get`: consult L2 via `_get`, delete on the
(unreachable, see `_get`) expired case, otherwise return the L2 value;
`evs` carries eviction events fired earlier in the same `Get`. -/
def LRU2Store.getStep3 (s : LRU2Store) (key : String) (idx : Nat) (now : Int)
    (evs : List (String × Value)) : Option Value × LRU2Store × List (String × Value) :=
  match s.getLevel key idx 1 now with
  | (some n2, status2, s') =>
      if 0 < status2 then
        if 0 < n2.expireAt ∧ now ≥ n2.expireAt then
          match s'.deleteAt key idx with
          | (_, s'', evs2) => (none, s'', evs ++ evs2)
        else (some n2.v, s', evs)
      else (none, s', evs)
  | (none, _, s') => (none, s', evs)

/-- Go `lru2Store.Get(key)`: `del` on L1 (recording presence and the
prior expiry); if live there and expired, delete from both tiers; if
live and fresh, promote the value into L2; in every case fall through
to the L2 lookup.  The clock (`Now()`) is passed in as `now`. -/
def LRU2Store.Get (s : LRU2Store) (key : String) (now : Int) :
    Option Value × LRU2Store × List (String × Value) :=
  match (s.caches (shardIdx key s.mask)).1.del key with
  | (n1, status1, expireAt, l1') =>
    let idx := shardIdx key s.mask
    let s1 := s.setShard idx (l1', (s.caches idx).2)
    if 0 < status1 then
      if 0 < expireAt ∧ now ≥ expireAt then
        match s1.deleteAt key idx with
        | (_, s2, evs) => (none, s2, evs)
      else
        match (s1.caches idx).2.put key ((n1.getD default).v) expireAt s.onEvicted with
        | (_, l2', evsP) =>
            LRU2Store.getStep3 (s1.setShard idx ((s1.caches idx).1, l2')) key idx now evsP
    else
      LRU2Store.getStep3 s1 key idx now []

/-- Go `lru2Store.SetWithExpiration(key, value, expiration)`: compute the
absolute expiry (`0` when `expiration ≤ 0`) and put into L1 only. -/
def LRU2Store.SetWithExpiration (s : LRU2Store) (key : String) (value : Value)
    (expiration now : Int) : LRU2Store × List (String × Value) :=
  let expireAt : Int := if 0 < expiration then now + expiration else 0
  let idx := shardIdx key s.mask
  match (s.caches idx).1.put key value expireAt s.onEvicted with
  | (_, l1', evs) => (s.setShard idx (l1', (s.caches idx).2), evs)

/-- Go `lru2Store.Set(key, value)`: a very long expiration simulating
"never expires". -/
def LRU2Store.Set (s : LRU2Store) (key : String) (value : Value) (now : Int) :
    LRU2Store × List (String × Value) :=
  s.SetWithExpiration key value 9999999999999999 now

/-- Go `lru2Store.Len()`: count the live entries of both tiers of every
shard (the Go walker increments a counter and always continues). -/
def LRU2Store.Len (s : LRU2Store) : Nat :=
  (List.range (s.mask + 1)).foldl
    (fun acc i => acc + (s.caches i).1.walk.length + (s.caches i).2.walk.length) 0

/-- Whether `key` is live in the L1 tier of its shard. -/
def LRU2Store.liveL1 (s : LRU2Store) (key : String) : Bool :=
  (s.caches (shardIdx key s.mask)).1.isLive key

/-- Whether `key` is live in the L2 tier of its shard. -/
def LRU2Store.liveL2 (s : LRU2Store) (key : String) : Bool :=
  (s.caches (shardIdx key s.mask)).2.isLive key

/-- The value stored for `key` in its shard's L1 tier. -/
def LRU2Store.l1Val (s : LRU2Store) (key : String) : Value :=
  (s.caches (shardIdx key s.mask)).1.storedVal key

/-- The value stored for `key` in its shard's L2 tier. -/
def LRU2Store.l2Val (s : LRU2Store) (key : String) : Value :=
  (s.caches (shardIdx key s.mask)).2.storedVal key

/-! The singleflight package.  A `call` holds the computed value and
error; the group's `sync.Map` becomes an association list from key to
the registered call.  For the single-caller (sequential) contract the
computation is represented by the value/error pair it produces. -/

/-- Result of a computation handed to the group: value and Go `error`
(`none` = nil error). -/
abbrev SFResult := Value × Option String

/-- Go `Group.Do(key, fn)` run by a single caller: `Load`; on a miss,
create the call, `Store` it, run `fn`, record the result, `Done`, then
`Delete` the key.  Returns the result, the final table, and whether
`fn` was executed (as opposed to a stored call being replayed). -/
def GroupDo (m : List (String × SFResult)) (key : String) (fnRes : SFResult) :
    SFResult × List (String × SFResult) × Bool :=
  match m.lookup key with
  | some c => (c, m, false)
  | none =>
      let m1 := alSet m key fnRes
      let m2 := alErase m1 key
      (fnRes, m2, true)

/-- Go `Group.DoV2(key, fn)` run by a single caller: `LoadOrStore`; when
already present replay the stored call; otherwise run `fn` and clean up
(`Delete` then `Done`) via the deferred function. -/
def GroupDoV2 (m : List (String × SFResult)) (key : String) (fnRes : SFResult) :
    SFResult × List (String × SFResult) × Bool :=
  match m.lookup key with
  | some c => (c, m, false)
  | none =>
      let m1 := alSet m key fnRes
      (fnRes, alErase m1 key, true)

/-! Interleaved model of `Group.Do` for concurrent callers on one key
`"k"`.  Each caller is a thread whose program counter walks through the
atomic steps of `Do`: `Load`; (miss) `Store`; run `fn`; `wg.Done`;
`Delete`; return — or (hit) `wg.Wait` then return the owning call's
result.  The observable computation increments a shared counter and
returns its new value, so the counter counts executions of `fn`. -/

/-- Program counter of one `Group.Do` caller. -/
inductive SFPc where
  | start
  | toStore
  | toExec
  | toDone
  | toDelete
  | toRet
  | waiting (cid : Nat)
  | finished
deriving Repr, DecidableEq

/-- One caller: program counter, its own call's value (`c.val`), its own
call's completion flag (`wg`), and the value it returned. -/
structure SFThread where
  pc : SFPc
  myVal : Nat
  callDone : Bool
  result : Option Nat
deriving Repr, DecidableEq

instance : Inhabited SFThread := ⟨⟨.finished, 0, false, none⟩⟩

/-- The whole system: the group's table (key ↦ id of the registering
thread, standing for the stored `*call`), the shared counter incremented
by `fn`, and the threads. -/
structure SFSys where
  table : List (String × Nat)
  counter : Nat
  threads : List SFThread
deriving Repr, DecidableEq

/-- One atomic step of thread `tid` of `Group.Do` (no-op when the thread
is finished or waiting on an incomplete call). -/
def sfStep (sys : SFSys) (tid : Nat) : SFSys :=
  let th := sys.threads.getD tid default
  match th.pc with
  | .start =>
      match sys.table.lookup "k" with
      | some cid => { sys with threads := sys.threads.set tid { th with pc := .waiting cid } }
      | none => { sys with threads := sys.threads.set tid { th with pc := .toStore } }
  | .toStore =>
      { sys with table := alSet sys.table "k" tid
                 threads := sys.threads.set tid { th with pc := .toExec } }
  | .toExec =>
      { sys with counter := sys.counter + 1
                 threads := sys.threads.set tid { th with myVal := sys.counter + 1, pc := .toDone } }
  | .toDone =>
      { sys with threads := sys.threads.set tid { th with callDone := true, pc := .toDelete } }
  | .toDelete =>
      { sys with table := alErase sys.table "k"
                 threads := sys.threads.set tid { th with pc := .toRet } }
  | .toRet =>
      { sys with threads := sys.threads.set tid { th with result := some th.myVal, pc := .finished } }
  | .waiting cid =>
      let owner := sys.threads.getD cid default
      if owner.callDone then
        { sys with threads := sys.threads.set tid { th with result := some owner.myVal, pc := .finished } }
      else sys
  | .finished => sys

/-- Run the `Group.Do` system under an explicit schedule (list of thread
ids, each entry letting that thread take its next atomic step). -/
def sfRun (sched : List Nat) (sys : SFSys) : SFSys :=
  sched.foldl sfStep sys

/-- Initial system for `n` concurrent callers of `Do("k", fn)`. -/
def sfInit (n : Nat) : SFSys :=
  { table := [], counter := 0, threads := List.replicate n ⟨.start, 0, false, none⟩ }

/-! The internal clock (`store` package): a shared int64 timestamp read
by `Now()`, updated by the `init` goroutine. -/

/-- Successive values the `init` goroutine's loop writes to the clock:
`i` remaining iterations of `clock += 100ms` after 100ms sleeps. -/
def clockLoopWrites : Nat → Int → List Int
  | 0, _ => []
  | i + 1, c => (c + 100000000) :: clockLoopWrites i (c + 100000000)

/-- Every write the clock-updater goroutine ever performs to the shared
timestamp, given the wall-clock value `wall` it reads at start: one
calibrating store followed by the loop's nine 100ms increments — after
which the goroutine returns and the clock is never written again. -/
def clockUpdaterWrites (wall : Int) : List Int :=
  wall :: clockLoopWrites 9 wall

/-! Basic lemmas about the list and map models. -/

theorem getD_set_eq {α : Type} :
    ∀ (l : List α) (i : Nat) (a d : α), (l.set i a).getD i d = if i < l.length then a else d
  | [], i, a, d => by simp
  | _ :: _, 0, a, d => by simp [List.getD]
  | x :: xs, i + 1, a, d => by
      simpa [List.getD] using getD_set_eq xs i a d

theorem getD_set_self {α : Type} (l : List α) (i : Nat) (a d : α) (h : i < l.length) :
    (l.set i a).getD i d = a := by
  rw [getD_set_eq, if_pos h]

theorem lookup_alSet_self {α : Type} (m : List (String × α)) (k : String) (a : α) :
    (alSet m k a).lookup k = some a := by
  simp [alSet, List.lookup]

theorem lookup_alErase_self {α : Type} (m : List (String × α)) (k : String) :
    (alErase m k).lookup k = none := by
  induction m with
  | nil => rfl
  | cons p t ih =>
      obtain ⟨k1, a1⟩ := p
      by_cases h : k1 = k
      · simpa [alErase, List.filter_cons, h] using ih
      · have hb : (k == k1) = false := beq_eq_false_iff_ne.mpr (Ne.symm h)
        simpa [alErase, List.filter_cons, h, List.lookup, hb] using ih

/-! Structural lemmas: `setLnk` and `adjust` only touch `dlnk`. -/

theorem setLnk_m (c : Cache) (i d x : Nat) : (c.setLnk i d x).m = c.m := rfl

theorem setLnk_hmap (c : Cache) (i d x : Nat) : (c.setLnk i d x).hmap = c.hmap := rfl

theorem setLnk_last (c : Cache) (i d x : Nat) : (c.setLnk i d x).last = c.last := rfl

theorem adjust_m (c : Cache) (i f t : Nat) : (c.adjust i f t).m = c.m := by
  unfold Cache.adjust
  split <;> rfl

theorem adjust_hmap (c : Cache) (i f t : Nat) : (c.adjust i f t).hmap = c.hmap := by
  unfold Cache.adjust
  split <;> rfl

theorem adjust_last (c : Cache) (i f t : Nat) : (c.adjust i f t).last = c.last := by
  unfold Cache.adjust
  split <;> rfl

/-! Well-formedness of a list state.  These are the structural facts the
Go code maintains (and relies on to avoid out-of-range indexing): `last`
never exceeds the capacity, mapped indices are 1-based and in use, and
when the array is full the sentinel's `pre` link (the tail slot that
`put` reclaims) is a valid 1-based slot index. -/

/-- The tail slot index `c.dlnk[0][pre]`. -/
def Cache.tailIdx (c : Cache) : Nat := c.lnk 0 pre

/-- Well-formedness of a `Cache`. -/
def WF (c : Cache) : Prop :=
  c.last ≤ c.m.length ∧
  (∀ k i, c.hmap.lookup k = some i → 1 ≤ i ∧ i ≤ c.last) ∧
  (c.last = c.m.length → 1 ≤ c.tailIdx ∧ c.tailIdx ≤ c.m.length)

theorem WF_Create (cap : Nat) (h : 0 < cap) : WF (Create cap) := by
  refine ⟨by simp [Create], ?_, ?_⟩
  · intro k i hk
    simp [Create, List.lookup] at hk
  · intro hlen
    simp [Create] at hlen
    omega

/-! Behavioural lemmas about the list operations. -/

/-- After `put key val e` on a well-formed list, `key` maps to an
in-range slot holding `val` with expiry `e`; the array length is
unchanged. -/
theorem put_spec (c : Cache) (key : String) (val : Value) (e : Int) (cb : Bool)
    (hwf : WF c) :
    ∃ j, (c.put key val e cb).2.1.hmap.lookup key = some j ∧ 1 ≤ j ∧ j - 1 < c.m.length ∧
      (c.put key val e cb).2.1.m.length = c.m.length ∧
      ((c.put key val e cb).2.1.m.getD (j - 1) default).v = val ∧
      ((c.put key val e cb).2.1.m.getD (j - 1) default).expireAt = e := by
  obtain ⟨hlast, hlook, htail⟩ := hwf
  cases hl : c.hmap.lookup key with
  | some idx =>
      obtain ⟨h1, h2⟩ := hlook key idx hl
      have hidx : idx - 1 < c.m.length := by omega
      refine ⟨idx, ?_, h1, hidx, ?_, ?_, ?_⟩
      · simp only [Cache.put, hl, adjust_hmap]
      · simp only [Cache.put, hl, adjust_m]
        exact List.length_set c.m _ _
      · simp only [Cache.put, hl, adjust_m]
        rw [getD_set_self _ _ _ _ hidx]
      · simp only [Cache.put, hl, adjust_m]
        rw [getD_set_self _ _ _ _ hidx]
  | none =>
      by_cases hfull : c.last = c.m.length
      · obtain ⟨ht1, ht2⟩ := htail hfull
        have ht1' : 1 ≤ c.lnk 0 pre := ht1
        have hidx : c.lnk 0 pre - 1 < c.m.length := by
          have h2 : c.lnk 0 pre ≤ c.m.length := ht2
          omega
        refine ⟨c.lnk 0 pre, ?_, ht1', hidx, ?_, ?_, ?_⟩
        · simp only [Cache.put, hl, if_pos hfull, adjust_hmap]
          exact lookup_alSet_self _ _ _
        · simp only [Cache.put, hl, if_pos hfull, adjust_m]
          exact List.length_set c.m _ _
        · simp only [Cache.put, hl, if_pos hfull, adjust_m]
          rw [getD_set_self _ _ _ _ hidx]
        · simp only [Cache.put, hl, if_pos hfull, adjust_m]
          rw [getD_set_self _ _ _ _ hidx]
      · have hlt : c.last < c.m.length := lt_of_le_of_ne hlast hfull
        have hidx : c.last + 1 - 1 < c.m.length := by omega
        refine ⟨c.last + 1, ?_, by omega, by omega, ?_, ?_, ?_⟩
        · simp only [Cache.put, hl, if_neg hfull]
          split <;> simp only [setLnk_m, setLnk_hmap, setLnk_last] <;>
            exact lookup_alSet_self _ _ _
        · simp only [Cache.put, hl, if_neg hfull]
          split <;> simp only [setLnk_m, setLnk_hmap, setLnk_last] <;>
            exact List.length_set c.m _ _
        · simp only [Cache.put, hl, if_neg hfull]
          split <;> simp only [setLnk_m, setLnk_hmap, setLnk_last] <;>
            rw [getD_set_self _ _ _ _ hidx]
        · simp only [Cache.put, hl, if_neg hfull]
          split <;> simp only [setLnk_m, setLnk_hmap, setLnk_last] <;>
            rw [getD_set_self _ _ _ _ hidx]

theorem getD_length_le {α : Type} :
    ∀ (l : List α) (i : Nat) (d : α), l.length ≤ i → l.getD i d = d
  | [], _, _, _ => by simp [List.getD]
  | _ :: _, 0, d, h => by simp at h
  | x :: xs, i + 1, d, h => by
      simpa [List.getD] using getD_length_le xs i d (by simpa using h)

/-- After `del key` on a list where `key` maps to an in-range live slot:
status 1, the captured expiry, the returned node carries the stored value,
the map is unchanged and the slot is tombstoned (so `key` is dead). -/
theorem del_spec (c : Cache) (key : String) (j : Nat)
    (hj : c.hmap.lookup key = some j) (hrange : j - 1 < c.m.length)
    (hpos : 0 < (c.m.getD (j - 1) default).expireAt) :
    ((c.del key).1.getD default).v = (c.m.getD (j - 1) default).v ∧
    (c.del key).2.1 = 1 ∧
    (c.del key).2.2.1 = (c.m.getD (j - 1) default).expireAt ∧
    (c.del key).2.2.2.hmap = c.hmap ∧
    (c.del key).2.2.2.m.length = c.m.length ∧
    ((c.del key).2.2.2.m.getD (j - 1) default).expireAt = 0 ∧
    (c.del key).2.2.2.isLive key = false := by
  have hget : ((c.m.set (j - 1)
      ⟨(c.m.getD (j - 1) default).k, (c.m.getD (j - 1) default).v, 0⟩).getD (j - 1)
      default) = ⟨(c.m.getD (j - 1) default).k, (c.m.getD (j - 1) default).v, 0⟩ :=
    getD_set_self _ _ _ _ hrange
  refine ⟨?_, ?_, ?_, ?_, ?_, ?_, ?_⟩ <;>
    simp only [Cache.del, hj, if_pos hpos, adjust_m, adjust_hmap, Cache.isLive]
  · rw [hget]
    rfl
  · exact List.length_set c.m _ _
  · rw [hget]
  · rw [hget]
    simp

/-- `del` on a key that is not live leaves the list untouched. -/
theorem del_not_live (c : Cache) (key : String) (h : c.isLive key = false) :
    c.del key = (none, 0, 0, c) := by
  unfold Cache.isLive at h
  cases hl : c.hmap.lookup key with
  | some idx =>
      rw [hl] at h
      simp only [decide_eq_false_iff_not] at h
      simp only [Cache.del, hl, if_neg h]
  | none =>
      simp only [Cache.del, hl]

/-- `del` on a live key: status 1, a `some` node is returned, and that
node carries the stored value (out of range, both sides are defaults). -/
theorem del_live (c : Cache) (key : String) (h : c.isLive key = true) :
    (c.del key).2.1 = 1 ∧ (c.del key).1.isSome = true ∧
    ((c.del key).1.getD default).v = c.storedVal key := by
  unfold Cache.isLive at h
  cases hl : c.hmap.lookup key with
  | some idx =>
      rw [hl] at h
      simp only [decide_eq_true_eq] at h
      refine ⟨?_, ?_, ?_⟩ <;> simp only [Cache.del, hl, if_pos h, adjust_m, Option.getD_some,
        Option.isSome_some]
      unfold Cache.storedVal
      rw [hl]
      simp only [Option.getD_some]
      by_cases hr : idx - 1 < c.m.length
      · rw [getD_set_self _ _ _ _ hr]
      · rw [getD_length_le _ _ _ (by simpa using not_lt.mp hr),
            getD_length_le _ _ _ (by simpa using not_lt.mp hr)]
  | none =>
      rw [hl] at h
      exact absurd h (by simp)

/-- `get` on a present key returns the stored node and leaves `m` and
`hmap` unchanged. -/
theorem get_spec (c : Cache) (key : String) (j : Nat) (hj : c.hmap.lookup key = some j) :
    (c.get key).1 = some (c.m.getD (j - 1) default) ∧
    (c.get key).2.1 = 1 ∧
    (c.get key).2.2.m = c.m ∧
    (c.get key).2.2.hmap = c.hmap := by
  refine ⟨?_, ?_, ?_, ?_⟩ <;> simp only [Cache.get, hj, adjust_m, adjust_hmap]

/-! Store-level plumbing lemmas. -/

theorem setShard_caches_self (s : LRU2Store) (i : Nat) (p : Cache × Cache) :
    (s.setShard i p).caches i = p := by
  simp [LRU2Store.setShard]

theorem setShard_caches_ne (s : LRU2Store) (i j : Nat) (p : Cache × Cache) (h : j ≠ i) :
    (s.setShard i p).caches j = s.caches j := by
  simp [LRU2Store.setShard, h]

theorem setShard_mask (s : LRU2Store) (i : Nat) (p : Cache × Cache) :
    (s.setShard i p).mask = s.mask := rfl

theorem setShard_onEvicted (s : LRU2Store) (i : Nat) (p : Cache × Cache) :
    (s.setShard i p).onEvicted = s.onEvicted := rfl

/-- Central lemma for `Get` on a key that is live (and unexpired) in L1:
the stored value is returned, the key ends up tombstoned in L1 and live
in L2 of its shard, and `mask`/`onEvicted` are untouched. -/
theorem get_promote_spec (s : LRU2Store) (key : String) (now : Int) (j : Nat)
    (hj : (s.caches (shardIdx key s.mask)).1.hmap.lookup key = some j)
    (hrange : j - 1 < (s.caches (shardIdx key s.mask)).1.m.length)
    (hpos : 0 < ((s.caches (shardIdx key s.mask)).1.m.getD (j - 1) default).expireAt)
    (hfresh : now < ((s.caches (shardIdx key s.mask)).1.m.getD (j - 1) default).expireAt)
    (hwf2 : WF (s.caches (shardIdx key s.mask)).2) :
    (s.Get key now).1 = some ((s.caches (shardIdx key s.mask)).1.m.getD (j - 1) default).v ∧
    ((s.Get key now).2.1.caches (shardIdx key s.mask)).1.isLive key = false ∧
    ((s.Get key now).2.1.caches (shardIdx key s.mask)).2.isLive key = true ∧
    (s.Get key now).2.1.mask = s.mask ∧
    (s.Get key now).2.1.onEvicted = s.onEvicted := by
  obtain ⟨hdv, hdst, hde, hdhmap, hdlen, hdexp, hdlive⟩ :=
    del_spec (s.caches (shardIdx key s.mask)).1 key j hj hrange hpos
  obtain ⟨n1, st1, e1, l1', hdel⟩ :
      ∃ a b e d, (s.caches (shardIdx key s.mask)).1.del key = (a, b, e, d) := ⟨_, _, _, _, rfl⟩
  simp only [hdel] at hdv hdst hde hdhmap hdlen hdexp hdlive
  subst hdst
  subst hde
  obtain ⟨j2, hj2, hj2ge, hj2lt, hlen2, hv2, he2⟩ :=
    put_spec (s.caches (shardIdx key s.mask)).2 key ((n1.getD default).v)
      ((s.caches (shardIdx key s.mask)).1.m.getD (j - 1) default).expireAt s.onEvicted hwf2
  obtain ⟨st2, l2', evs2, hput⟩ :
      ∃ a b c, (s.caches (shardIdx key s.mask)).2.put key ((n1.getD default).v)
        ((s.caches (shardIdx key s.mask)).1.m.getD (j - 1) default).expireAt s.onEvicted =
        (a, b, c) := ⟨_, _, _, rfl⟩
  simp only [hput] at hj2 hlen2 hv2 he2
  obtain ⟨hg1, hg2, hg3, hg4⟩ := get_spec l2' key j2 hj2
  obtain ⟨n2, stg, l2'', hget2⟩ : ∃ a b c, l2'.get key = (a, b, c) := ⟨_, _, _, rfl⟩
  simp only [hget2] at hg1 hg2 hg3 hg4
  subst hg1
  subst hg2
  have hcond : ¬(0 < ((s.caches (shardIdx key s.mask)).1.m.getD (j - 1) default).expireAt ∧
      now ≥ ((s.caches (shardIdx key s.mask)).1.m.getD (j - 1) default).expireAt) := by
    rintro ⟨-, h2⟩
    omega
  have hcond2 : ¬((l2'.m.getD (j2 - 1) default).expireAt ≤ 0 ∨
      now ≥ (l2'.m.getD (j2 - 1) default).expireAt) := by
    rw [he2]
    rintro (h1 | h2) <;> omega
  have hcond3 : ¬(0 < (l2'.m.getD (j2 - 1) default).expireAt ∧
      now ≥ (l2'.m.getD (j2 - 1) default).expireAt) := by
    rw [he2]
    rintro ⟨-, h2⟩
    omega
  have hone : ((1 : Nat) = 0) = False := by simp
  refine ⟨?_, ?_, ?_, ?_, ?_⟩ <;>
    simp only [LRU2Store.Get, hdel, setShard_caches_self, setShard_mask, setShard_onEvicted,
      LRU2Store.getStep3, LRU2Store.getLevel, hput, hget2, hcond, hcond2, hcond3, hone,
      zero_lt_one, if_true, if_false, ite_false, ite_true,
      Option.isSome_some, Bool.true_and, and_true, true_and, not_false_iff]
  · rw [hv2, hdv]
  · exact hdlive
  · unfold Cache.isLive
    rw [hg4, hj2]
    dsimp only
    rw [hg3, he2]
    simpa using hpos

/-- `SetWithExpiration` with a positive expiration on a shard whose L1
is well-formed: the key lands in L1 with the given value and absolute
expiry `now + exp`, no L2 list of any shard is written, and the store's
`mask` and `onEvicted` are untouched. -/
theorem setWithExpiration_spec (s : LRU2Store) (key : String) (v : Value) (exp now : Int)
    (hexp : 0 < exp)
    (hwf1 : WF (s.caches (shardIdx key s.mask)).1) :
    ∃ j,
      ((s.SetWithExpiration key v exp now).1.caches
        (shardIdx key s.mask)).1.hmap.lookup key = some j ∧
      j - 1 < ((s.SetWithExpiration key v exp now).1.caches (shardIdx key s.mask)).1.m.length ∧
      (((s.SetWithExpiration key v exp now).1.caches
        (shardIdx key s.mask)).1.m.getD (j - 1) default).v = v ∧
      (((s.SetWithExpiration key v exp now).1.caches
        (shardIdx key s.mask)).1.m.getD (j - 1) default).expireAt = now + exp ∧
      (s.SetWithExpiration key v exp now).1.mask = s.mask ∧
      (s.SetWithExpiration key v exp now).1.onEvicted = s.onEvicted ∧
      (∀ i, ((s.SetWithExpiration key v exp now).1.caches i).2 = (s.caches i).2) := by
  obtain ⟨j, hj, hjge, hjlt, hlen, hv, he⟩ :=
    put_spec (s.caches (shardIdx key s.mask)).1 key v (now + exp) s.onEvicted hwf1
  obtain ⟨st1, l1', evs1, hput⟩ : ∃ a b c,
      (s.caches (shardIdx key s.mask)).1.put key v (now + exp) s.onEvicted = (a, b, c) :=
    ⟨_, _, _, rfl⟩
  simp only [hput] at hj hjlt hlen hv he
  refine ⟨j, ?_, ?_, ?_, ?_, ?_, ?_, ?_⟩ <;>
    simp only [LRU2Store.SetWithExpiration, if_pos hexp, hput, setShard_caches_self,
      setShard_mask, setShard_onEvicted]
  · exact hj
  · omega
  · exact hv
  · exact he
  · intro i
    by_cases hii : i = shardIdx key s.mask
    · subst hii
      rw [setShard_caches_self]
    · rw [setShard_caches_ne _ _ _ _ hii]

/-- C9: for every key `k` and value `v`, `set(k, v)` followed immediately
by `get(k)` returns `(v, true)` (here: `some v`), on any store state whose
(`k`-shard) tiers are well-formed; promotions or evictions of other keys
in other shards live in those shards' caches and cannot affect this. -/
theorem c9_set_get_roundtrip (s : LRU2Store) (key : String) (v : Value) (now : Int)
    (hnow : 0 ≤ now)
    (hwf1 : WF (s.caches (shardIdx key s.mask)).1)
    (hwf2 : WF (s.caches (shardIdx key s.mask)).2) :
    ((s.Set key v now).1.Get key now).1 = some v := by
  obtain ⟨j, hj, hjlt, hv, he, hmask, hcb, hl2⟩ :=
    setWithExpiration_spec s key v 9999999999999999 now (by norm_num) hwf1
  have hidx : shardIdx key (s.SetWithExpiration key v 9999999999999999 now).1.mask
      = shardIdx key s.mask := by rw [hmask]
  have hpos : 0 < (((s.SetWithExpiration key v 9999999999999999 now).1.caches
      (shardIdx key s.mask)).1.m.getD (j - 1) default).expireAt := by
    rw [he]
    omega
  have hfresh : now < (((s.SetWithExpiration key v 9999999999999999 now).1.caches
      (shardIdx key s.mask)).1.m.getD (j - 1) default).expireAt := by
    rw [he]
    omega
  have hwf2' : WF ((s.SetWithExpiration key v 9999999999999999 now).1.caches
      (shardIdx key s.mask)).2 := by
    rw [hl2]
    exact hwf2
  obtain ⟨hres, _, _, _, _⟩ :=
    get_promote_spec (s.SetWithExpiration key v 9999999999999999 now).1 key now j
      (by rw [hidx]; exact hj) (by rw [hidx]; exact hjlt) (by rw [hidx]; exact hpos)
      (by rw [hidx]; exact hfresh) (by rw [hidx]; exact hwf2')
  show ((s.SetWithExpiration key v 9999999999999999 now).1.Get key now).1 = some v
  rw [hres, hidx, hv]

/-- C9 witness: a concrete round trip through the theorem. -/
theorem c9_set_get_roundtrip_witness :
    (((newLRU2Cache 1 2 2 false).Set "a" 7 0).1.Get "a" 0).1 = some 7 :=
  c9_set_get_roundtrip (newLRU2Cache 1 2 2 false) "a" 7 0 (by norm_num)
    (WF_Create 2 (by norm_num)) (WF_Create 2 (by norm_num))

/-- C5: a freshly `set` key is live only in the L1 tier of its shard
immediately after the `set` (and `set` writes no L2 tier of any shard),
and after exactly one subsequent successful `get` before expiry it is
live only in the L2 tier of that shard; that `get` returns the value. -/
theorem c5_single_access_promotion (s : LRU2Store) (key : String) (v : Value) (now now2 : Int)
    (hnow : 0 ≤ now) (hnow2 : now2 < now + 9999999999999999)
    (hwf1 : WF (s.caches (shardIdx key s.mask)).1)
    (hwf2 : WF (s.caches (shardIdx key s.mask)).2)
    (hfresh1 : (s.caches (shardIdx key s.mask)).1.hmap.lookup key = none)
    (hfresh2 : (s.caches (shardIdx key s.mask)).2.hmap.lookup key = none) :
    (s.Set key v now).1.liveL1 key = true ∧
    (s.Set key v now).1.liveL2 key = false ∧
    (∀ i, ((s.Set key v now).1.caches i).2 = (s.caches i).2) ∧
    ((s.Set key v now).1.Get key now2).1 = some v ∧
    ((s.Set key v now).1.Get key now2).2.1.liveL1 key = false ∧
    ((s.Set key v now).1.Get key now2).2.1.liveL2 key = true := by
  obtain ⟨j, hj, hjlt, hv, he, hmask, hcb, hl2⟩ :=
    setWithExpiration_spec s key v 9999999999999999 now (by norm_num) hwf1
  have hidx : shardIdx key (s.SetWithExpiration key v 9999999999999999 now).1.mask
      = shardIdx key s.mask := by rw [hmask]
  have hpos : 0 < (((s.SetWithExpiration key v 9999999999999999 now).1.caches
      (shardIdx key s.mask)).1.m.getD (j - 1) default).expireAt := by
    rw [he]
    omega
  have hfreshE : now2 < (((s.SetWithExpiration key v 9999999999999999 now).1.caches
      (shardIdx key s.mask)).1.m.getD (j - 1) default).expireAt := by
    rw [he]
    omega
  have hwf2' : WF ((s.SetWithExpiration key v 9999999999999999 now).1.caches
      (shardIdx key s.mask)).2 := by
    rw [hl2]
    exact hwf2
  obtain ⟨hres, hl1dead, hl2live, hgmask, hgcb⟩ :=
    get_promote_spec (s.SetWithExpiration key v 9999999999999999 now).1 key now2 j
      (by rw [hidx]; exact hj) (by rw [hidx]; exact hjlt) (by rw [hidx]; exact hpos)
      (by rw [hidx]; exact hfreshE) (by rw [hidx]; exact hwf2')
  rw [hidx] at hl1dead hl2live
  refine ⟨?_, ?_, ?_, ?_, ?_, ?_⟩
  · show (s.SetWithExpiration key v 9999999999999999 now).1.liveL1 key = true
    unfold LRU2Store.liveL1
    rw [hidx]
    unfold Cache.isLive
    rw [hj]
    exact decide_eq_true hpos
  · show (s.SetWithExpiration key v 9999999999999999 now).1.liveL2 key = false
    unfold LRU2Store.liveL2
    rw [hidx, hl2 (shardIdx key s.mask)]
    unfold Cache.isLive
    rw [hfresh2]
  · exact fun i => hl2 i
  · show ((s.SetWithExpiration key v 9999999999999999 now).1.Get key now2).1 = some v
    rw [hres, hidx, hv]
  · show ((s.SetWithExpiration key v 9999999999999999 now).1.Get key now2).2.1.liveL1 key = false
    unfold LRU2Store.liveL1
    rw [hgmask, hidx]
    exact hl1dead
  · show ((s.SetWithExpiration key v 9999999999999999 now).1.Get key now2).2.1.liveL2 key = true
    unfold LRU2Store.liveL2
    rw [hgmask, hidx]
    exact hl2live

/-- C5 witness: the theorem applied at a fresh two-shard-parameter store
with key `"a"`, value 7, `set` at time 0 and `get` at time 1. -/
theorem c5_single_access_promotion_witness :
    ((newLRU2Cache 1 2 2 false).Set "a" 7 0).1.liveL1 "a" = true ∧
    ((newLRU2Cache 1 2 2 false).Set "a" 7 0).1.liveL2 "a" = false ∧
    (∀ i, (((newLRU2Cache 1 2 2 false).Set "a" 7 0).1.caches i).2 =
      ((newLRU2Cache 1 2 2 false).caches i).2) ∧
    (((newLRU2Cache 1 2 2 false).Set "a" 7 0).1.Get "a" 1).1 = some 7 ∧
    (((newLRU2Cache 1 2 2 false).Set "a" 7 0).1.Get "a" 1).2.1.liveL1 "a" = false ∧
    (((newLRU2Cache 1 2 2 false).Set "a" 7 0).1.Get "a" 1).2.1.liveL2 "a" = true :=
  c5_single_access_promotion (newLRU2Cache 1 2 2 false) "a" 7 0 1 (by norm_num) (by norm_num)
    (WF_Create 2 (by norm_num)) (WF_Create 2 (by norm_num)) rfl rfl

/-- C6: `delete(key)` returns true iff the key was live in at least one
tier of its shard; when it returns true and a callback is installed the
eviction callback fires exactly once — with the L1 value whenever L1
held a live copy (in particular when both tiers did) and with the L2
value when only L2 did; on a nonexistent or already-deleted key it
returns false and the callback never fires. -/
theorem c6_delete_contract (s : LRU2Store) (key : String) (hcb : s.onEvicted = true) :
    ((s.Delete key).1 = true ↔ (s.liveL1 key = true ∨ s.liveL2 key = true)) ∧
    (s.liveL1 key = true → (s.Delete key).2.2 = [(key, s.l1Val key)]) ∧
    (s.liveL1 key = false ∧ s.liveL2 key = true → (s.Delete key).2.2 = [(key, s.l2Val key)]) ∧
    ((s.Delete key).1 = false → (s.Delete key).2.2 = []) := by
  cases h1 : s.liveL1 key <;> cases h2 : s.liveL2 key
  case false.false =>
      have h1' : (s.caches (shardIdx key s.mask)).1.isLive key = false := h1
      have h2' : (s.caches (shardIdx key s.mask)).2.isLive key = false := h2
      have hd1 := del_not_live _ _ h1'
      have hd2 := del_not_live _ _ h2'
      refine ⟨?_, ?_, ?_, ?_⟩ <;>
        simp [LRU2Store.Delete, LRU2Store.deleteAt, hd1, hd2]
  case false.true =>
      have h1' : (s.caches (shardIdx key s.mask)).1.isLive key = false := h1
      have h2' : (s.caches (shardIdx key s.mask)).2.isLive key = true := h2
      have hd1 := del_not_live _ _ h1'
      obtain ⟨hst, hsome, hv⟩ := del_live _ _ h2'
      obtain ⟨n2, st2, e2, l2', hdel2⟩ : ∃ a b e d,
          (s.caches (shardIdx key s.mask)).2.del key = (a, b, e, d) := ⟨_, _, _, _, rfl⟩
      simp only [hdel2] at hst hsome hv
      subst hst
      obtain ⟨nd2, rfl⟩ := Option.isSome_iff_exists.mp hsome
      simp only [Option.getD_some] at hv
      refine ⟨?_, ?_, ?_, ?_⟩ <;>
        simp [LRU2Store.Delete, LRU2Store.deleteAt, hd1, hdel2, hcb, LRU2Store.l2Val, hv]
  case true.false =>
      have h1' : (s.caches (shardIdx key s.mask)).1.isLive key = true := h1
      have h2' : (s.caches (shardIdx key s.mask)).2.isLive key = false := h2
      obtain ⟨hst, hsome, hv⟩ := del_live _ _ h1'
      obtain ⟨n1, st1, e1, l1', hdel1⟩ : ∃ a b e d,
          (s.caches (shardIdx key s.mask)).1.del key = (a, b, e, d) := ⟨_, _, _, _, rfl⟩
      simp only [hdel1] at hst hsome hv
      subst hst
      obtain ⟨nd1, rfl⟩ := Option.isSome_iff_exists.mp hsome
      simp only [Option.getD_some] at hv
      have hd2 := del_not_live _ _ h2'
      refine ⟨?_, ?_, ?_, ?_⟩ <;>
        simp [LRU2Store.Delete, LRU2Store.deleteAt, hdel1, hd2, hcb, LRU2Store.l1Val, hv]
  case true.true =>
      have h1' : (s.caches (shardIdx key s.mask)).1.isLive key = true := h1
      have h2' : (s.caches (shardIdx key s.mask)).2.isLive key = true := h2
      obtain ⟨hst1, hsome1, hv1⟩ := del_live _ _ h1'
      obtain ⟨n1, st1, e1, l1', hdel1⟩ : ∃ a b e d,
          (s.caches (shardIdx key s.mask)).1.del key = (a, b, e, d) := ⟨_, _, _, _, rfl⟩
      simp only [hdel1] at hst1 hsome1 hv1
      subst hst1
      obtain ⟨nd1, rfl⟩ := Option.isSome_iff_exists.mp hsome1
      simp only [Option.getD_some] at hv1
      obtain ⟨hst2, hsome2, hv2⟩ := del_live _ _ h2'
      obtain ⟨n2, st2, e2, l2', hdel2⟩ : ∃ a b e d,
          (s.caches (shardIdx key s.mask)).2.del key = (a, b, e, d) := ⟨_, _, _, _, rfl⟩
      simp only [hdel2] at hst2 hsome2 hv2
      subst hst2
      obtain ⟨nd2, rfl⟩ := Option.isSome_iff_exists.mp hsome2
      refine ⟨?_, ?_, ?_, ?_⟩ <;>
        simp [LRU2Store.Delete, LRU2Store.deleteAt, hdel1, hdel2, hcb, LRU2Store.l1Val, hv1]

/-- The store used by the C6 witness: after `set a; get a; set a` the key
is live in both tiers of its shard, with value 2 in L1 and 1 in L2. -/
def c6Store : LRU2Store :=
  ((((newLRU2Cache 1 4 4 true).Set "a" 1 0).1.Get "a" 0).2.1.Set "a" 2 0).1

/-- C6 witness: the delete contract applied at a concrete store holding
`"a"` live in both tiers (L1 value 2, L2 value 1), with the callback
configured. -/
theorem c6_delete_contract_witness :
    c6Store.onEvicted = true ∧
    (((c6Store.Delete "a").1 = true ↔
        (c6Store.liveL1 "a" = true ∨ c6Store.liveL2 "a" = true)) ∧
      (c6Store.liveL1 "a" = true → (c6Store.Delete "a").2.2 = [("a", c6Store.l1Val "a")]) ∧
      (c6Store.liveL1 "a" = false ∧ c6Store.liveL2 "a" = true →
        (c6Store.Delete "a").2.2 = [("a", c6Store.l2Val "a")]) ∧
      ((c6Store.Delete "a").1 = false → (c6Store.Delete "a").2.2 = [])) :=
  ⟨rfl, c6_delete_contract c6Store "a" rfl⟩

/-- C7: `put` on a list at full capacity with a new key reclaims the
tail slot, invoking the installed eviction callback exactly once with
the tail's prior key and value iff that tail was live (`expireAt > 0`)
at the moment of reclamation; a tombstoned tail is reused silently. -/
theorem c7_eviction_callback_only_live_tail (c : Cache) (key : String) (val : Value)
    (e : Int) (hfull : c.last = c.m.length) (habs : c.hmap.lookup key = none) :
    (c.put key val e true).2.2 =
      (if 0 < (c.m.getD (c.lnk 0 pre - 1) default).expireAt then
        [((c.m.getD (c.lnk 0 pre - 1) default).k, (c.m.getD (c.lnk 0 pre - 1) default).v)]
      else []) := by
  simp only [Cache.put, habs, if_pos hfull, true_and]

/-- C7 witness: a full capacity-1 list holding a live `"a"` (value 5);
putting `"b"` reclaims that live tail and fires the callback exactly
once with `("a", 5)`; the hypotheses are discharged concretely. -/
theorem c7_eviction_callback_only_live_tail_witness :
    (((Create 1).put "a" 5 7 true).2.1.last = ((Create 1).put "a" 5 7 true).2.1.m.length ∧
      ((Create 1).put "a" 5 7 true).2.1.hmap.lookup "b" = none) ∧
    (((Create 1).put "a" 5 7 true).2.1.put "b" 6 9 true).2.2 = [("a", 5)] := by
  refine ⟨⟨by decide, by decide⟩, ?_⟩
  rw [c7_eviction_callback_only_live_tail _ _ _ _ (by decide) (by decide)]
  decide

/-- C8: a `do(key, compute)` with no call in flight for `key` returns
exactly the value/error pair `compute` produced (the error verbatim),
executes `compute`, and removes `key` from the table on completion, so a
later call re-executes (returning its own fresh result) — for both `Do`
and `DoV2`. -/
theorem c8_do_verbatim_result_and_cleanup (m : List (String × SFResult)) (key : String)
    (r1 r2 : SFResult) (h : m.lookup key = none) :
    (GroupDo m key r1).1 = r1 ∧ (GroupDo m key r1).2.2 = true ∧
    (GroupDo m key r1).2.1.lookup key = none ∧
    (GroupDo (GroupDo m key r1).2.1 key r2).1 = r2 ∧
    (GroupDo (GroupDo m key r1).2.1 key r2).2.2 = true ∧
    (GroupDoV2 m key r1).1 = r1 ∧ (GroupDoV2 m key r1).2.2 = true ∧
    (GroupDoV2 m key r1).2.1.lookup key = none := by
  have hclean : (alErase (alSet m key r1) key).lookup key = none := lookup_alErase_self _ _
  refine ⟨?_, ?_, ?_, ?_, ?_, ?_, ?_, ?_⟩ <;>
    simp only [GroupDo, GroupDoV2, h, hclean]

/-- C8 witness: a failing computation's error `"boom"` is returned
verbatim and the key is cleaned up so the next call re-executes. -/
theorem c8_do_verbatim_result_and_cleanup_witness :
    (GroupDo [] "k" (1, some "boom")).1 = (1, some "boom") ∧
    (GroupDo [] "k" (1, some "boom")).2.2 = true ∧
    (GroupDo [] "k" (1, some "boom")).2.1.lookup "k" = none ∧
    (GroupDo (GroupDo [] "k" (1, some "boom")).2.1 "k" (2, none)).1 = (2, none) ∧
    (GroupDo (GroupDo [] "k" (1, some "boom")).2.1 "k" (2, none)).2.2 = true ∧
    (GroupDoV2 [] "k" (1, some "boom")).1 = (1, some "boom") ∧
    (GroupDoV2 [] "k" (1, some "boom")).2.2 = true ∧
    (GroupDoV2 [] "k" (1, some "boom")).2.1.lookup "k" = none :=
  c8_do_verbatim_result_and_cleanup [] "k" (1, some "boom") (2, none) rfl

/-- C1 (evaluation of the failing interleaving): two concurrent callers
of `Do("k", fn)` both perform the `Load` before either `Store`s, so both
become executors: the observable computation runs twice (the shared
counter reaches 2) and the two callers return different values (1 and
2), with every thread having run to completion. -/
theorem c1_do_duplicate_execution :
    (sfRun [0, 1, 0, 0, 0, 0, 0, 1, 1, 1, 1, 1] (sfInit 2)).counter = 2 ∧
    ((sfRun [0, 1, 0, 0, 0, 0, 0, 1, 1, 1, 1, 1] (sfInit 2)).threads.getD 0 default).result =
      some 1 ∧
    ((sfRun [0, 1, 0, 0, 0, 0, 0, 1, 1, 1, 1, 1] (sfInit 2)).threads.getD 1 default).result =
      some 2 ∧
    (∀ t ∈ (sfRun [0, 1, 0, 0, 0, 0, 0, 1, 1, 1, 1, 1] (sfInit 2)).threads,
      t.pc = SFPc.finished) := by
  decide

/-- C4 (evaluation of the clock updater): the `init` goroutine writes the
shared timestamp exactly ten times — one wall-clock calibration plus nine
100ms increments covering about one second — and then returns; the last
value it ever writes is `wall + 900ms`, after which the clock is frozen.
(The claim requires re-synchronization once per second for the whole
process lifetime, i.e. an unbounded sequence of writes.) -/
theorem c4_clock_updater_writes_finitely (wall : Int) :
    (clockUpdaterWrites wall).length = 10 ∧
    (clockUpdaterWrites wall).getLast? = some (wall + 900000000) := by
  refine ⟨by norm_num [clockUpdaterWrites, clockLoopWrites], ?_⟩
  norm_num [clockUpdaterWrites, clockLoopWrites, List.getLast?]
  omega

/-- C4 witness: the updater's write trace evaluated at a concrete start
instant. -/
theorem c4_clock_updater_writes_finitely_witness :
    (clockUpdaterWrites 0).length = 10 ∧
    (clockUpdaterWrites 0).getLast? = some (0 + 900000000) :=
  c4_clock_updater_writes_finitely 0

/-- A one-shard store used to evaluate C2 and C3. -/
def oneShardStore : LRU2Store := newLRU2Cache 1 4 4 false

/-- C2 (evaluation at the failing input): `setWithExpiration` with a
zero expiration stores `expireAt = 0` — the tombstone value, not a
positive sentinel — so the entry is dead on arrival: not live, and a
`get` at the very same instant misses.  (The `set` path, with its huge
fixed duration, does store a strictly positive expiry.) -/
theorem c2_zero_expiration_stored_as_tombstone :
    (((oneShardStore.SetWithExpiration "a" 7 0 1000).1.caches 0).1.m.getD 0 default).expireAt
      = 0 ∧
    ((oneShardStore.SetWithExpiration "a" 7 0 1000).1.caches 0).1.hmap.lookup "a" = some 1 ∧
    (oneShardStore.SetWithExpiration "a" 7 0 1000).1.liveL1 "a" = false ∧
    ((oneShardStore.SetWithExpiration "a" 7 0 1000).1.Get "a" 1000).1 = none ∧
    (((oneShardStore.Set "a" 7 1000).1.caches 0).1.m.getD 0 default).expireAt =
      1000 + 9999999999999999 := by
  decide

/-- A store with `"a"` live only in L2 with expiry timestamp 5 (reached
by `setWithExpiration` at clock 0 and a promoting `get` at clock 1),
used by the C3 counterexample and witness. -/
def c3Store : LRU2Store :=
  (((newLRU2Cache 1 4 4 false).SetWithExpiration "a" 7 5 0).1.Get "a" 1).2.1

/-- C3 counterexample: `"a"` is absent from L1 and present in L2 with
expiry 5; at clock 10 (past expiry) `get` returns not-found but deletes
nothing — afterwards the key is still mapped and still live-flagged with
the same expiry in L2, refuting "physically deletes k from both tiers". -/
theorem c3_expired_l2_get_does_not_delete :
    c3Store.liveL1 "a" = false ∧ c3Store.liveL2 "a" = true ∧
    ((c3Store.caches 0).2.m.getD 0 default).expireAt = 5 ∧
    (c3Store.Get "a" 10).1 = none ∧
    ((c3Store.Get "a" 10).2.1.caches 0).2.hmap.lookup "a" = some 1 ∧
    (((c3Store.Get "a" 10).2.1.caches 0).2.m.getD 0 default).expireAt = 5 ∧
    (c3Store.Get "a" 10).2.1.liveL2 "a" = true := by
  decide

/-- C3 amended: for a key absent (not live) in L1 and present in L2 with
a positive expiry that the clock has reached, `get` returns not-found
but does not delete the entry: L1 is untouched, L2's map and node array
are unchanged (the entry stays live-flagged, left for the background
sweep), and no eviction event fires.  The `Get` branch that would delete
an expired L2 entry is unreachable because `_get` already filters
expired entries out. -/
theorem c3_expired_l2_amended (s : LRU2Store) (key : String) (now : Int) (j : Nat)
    (hdead1 : (s.caches (shardIdx key s.mask)).1.isLive key = false)
    (hj : (s.caches (shardIdx key s.mask)).2.hmap.lookup key = some j)
    (hpos : 0 < ((s.caches (shardIdx key s.mask)).2.m.getD (j - 1) default).expireAt)
    (hexpired : ((s.caches (shardIdx key s.mask)).2.m.getD (j - 1) default).expireAt ≤ now) :
    (s.Get key now).1 = none ∧
    ((s.Get key now).2.1.caches (shardIdx key s.mask)).1 = (s.caches (shardIdx key s.mask)).1 ∧
    ((s.Get key now).2.1.caches (shardIdx key s.mask)).2.hmap =
      (s.caches (shardIdx key s.mask)).2.hmap ∧
    ((s.Get key now).2.1.caches (shardIdx key s.mask)).2.m =
      (s.caches (shardIdx key s.mask)).2.m ∧
    ((s.Get key now).2.1.caches (shardIdx key s.mask)).2.isLive key = true ∧
    (s.Get key now).2.2 = [] := by
  have hdel := del_not_live (s.caches (shardIdx key s.mask)).1 key hdead1
  obtain ⟨hg1, hg2, hg3, hg4⟩ := get_spec (s.caches (shardIdx key s.mask)).2 key j hj
  obtain ⟨n2, stg, l2'', hget2⟩ : ∃ a b c,
      (s.caches (shardIdx key s.mask)).2.get key = (a, b, c) := ⟨_, _, _, rfl⟩
  simp only [hget2] at hg1 hg2 hg3 hg4
  subst hg1
  subst hg2
  have hcond : ((s.caches (shardIdx key s.mask)).2.m.getD (j - 1) default).expireAt ≤ 0 ∨
      now ≥ ((s.caches (shardIdx key s.mask)).2.m.getD (j - 1) default).expireAt :=
    Or.inr hexpired
  have hone : ((1 : Nat) = 0) = False := by simp
  refine ⟨?_, ?_, ?_, ?_, ?_, ?_⟩ <;>
    simp only [LRU2Store.Get, hdel, LRU2Store.getStep3, LRU2Store.getLevel, hget2, hone,
      setShard_caches_self, lt_self_iff_false, if_pos hcond, zero_lt_one,
      if_true, if_false, ite_false, ite_true]
  · exact hg4
  · exact hg3
  · unfold Cache.isLive
    rw [hg4, hj]
    dsimp only
    rw [hg3]
    exact decide_eq_true hpos

/-- C3 amended witness: the amended behaviour at the concrete store. -/
theorem c3_expired_l2_amended_witness :
    ((c3Store.caches (shardIdx "a" c3Store.mask)).1.isLive "a" = false ∧
      (c3Store.caches (shardIdx "a" c3Store.mask)).2.hmap.lookup "a" = some 1 ∧
      0 < ((c3Store.caches (shardIdx "a" c3Store.mask)).2.m.getD 0 default).expireAt ∧
      ((c3Store.caches (shardIdx "a" c3Store.mask)).2.m.getD 0 default).expireAt ≤ 10) ∧
    ((c3Store.Get "a" 10).1 = none ∧
      ((c3Store.Get "a" 10).2.1.caches (shardIdx "a" c3Store.mask)).1 =
        (c3Store.caches (shardIdx "a" c3Store.mask)).1 ∧
      ((c3Store.Get "a" 10).2.1.caches (shardIdx "a" c3Store.mask)).2.hmap =
        (c3Store.caches (shardIdx "a" c3Store.mask)).2.hmap ∧
      ((c3Store.Get "a" 10).2.1.caches (shardIdx "a" c3Store.mask)).2.m =
        (c3Store.caches (shardIdx "a" c3Store.mask)).2.m ∧
      ((c3Store.Get "a" 10).2.1.caches (shardIdx "a" c3Store.mask)).2.isLive "a" = true ∧
      (c3Store.Get "a" 10).2.2 = []) :=
  ⟨⟨by decide, by decide, by decide, by decide⟩,
    c3_expired_l2_amended c3Store "a" 10 1 (by decide) (by decide) (by decide) (by decide)⟩

/-- The store reached by `set a; get a; set a` on a fresh one-shard
store: the operation sequence of C10. -/
def c10Store : LRU2Store :=
  ((((newLRU2Cache 1 4 4 false).Set "a" 1 0).1.Get "a" 0).2.1.Set "a" 2 0).1

/-- C10: after `set(k, v); get(k); set(k, v')` with no expiry elapsing,
the key is simultaneously live in both the L1 and the L2 list of its
shard, and `len()` returns 2 although only one distinct key is stored. -/
theorem c10_double_residency_len_two :
    c10Store.liveL1 "a" = true ∧ c10Store.liveL2 "a" = true ∧ c10Store.Len = 2 := by
  decide

end YangCache
